import Mathlib

/-!
Shallow embedding of `src/mongo/db/vector_clock.cpp`: the `VectorClock`
state container, its rate limiter and max-merge advance path, and the
gossip-format strategies (`Plain`, `Signed`, `OnlyGossipOutOnNewFCV`).

Machine integers (the unsigned 32-bit seconds/increment fields of a
Timestamp) are modelled as `Nat`; the rate limiter's only subtraction,
`newTimeSecs - wallClockSecs`, is evaluated in the source only after
`newTimeSecs > wallClockSecs` (short-circuit), so truncated `Nat`
subtraction coincides with the machine value on every reachable path.
-/

namespace VectorClockSpec

/-- Model of `VectorClock::kMaxValue`: both Timestamp fields of a `LogicalTime`
are capped at `2^31 - 1`. -/
def kMaxValue : Nat := 2 ^ 31 - 1

/-- A `LogicalTime`: a Timestamp's unsigned 32-bit seconds and increment
fields, totally ordered lexicographically. -/
structure LogicalTime where
  secs : Nat
  inc : Nat
deriving DecidableEq, Repr

/-- Default-constructed `LogicalTime()`: the zero value. -/
def LogicalTime.zero : LogicalTime := ⟨0, 0⟩

/-- Strict lexicographic order on (seconds, increment), the order the
source's `operator>` on `LogicalTime` (via the packed 64-bit timestamp)
induces. -/
def LogicalTime.ltb (a b : LogicalTime) : Bool :=
  a.secs < b.secs || (a.secs == b.secs && a.inc < b.inc)

/-- Non-strict companion of `LogicalTime.ltb`. -/
def LogicalTime.leb (a b : LogicalTime) : Bool :=
  a.secs < b.secs || (a.secs == b.secs && a.inc ≤ b.inc)

/-- The two clock channels, in ordinal order (`ClusterTime = 0`,
`ConfigTime = 1`). -/
inductive Component where
  | clusterTime
  | configTime
deriving DecidableEq, Repr, Fintype

/-- Components in ordinal order, the iteration order of
`ComponentArray`. -/
def componentList : List Component := [.clusterTime, .configTime]

/-- Model of `ComponentArray<LogicalTime>`: a candidate or current tuple. -/
def LogicalTimeArray := Component → LogicalTime

/-- The wire field name each component's formatter carries
(`GossipFormat::_fieldName`), reported by `VectorClock::_componentName`. -/
def componentFieldName : Component → String
  | .clusterTime => "$clusterTime"
  | .configTime => "$configTime"

/-- The environment the rate limiter reads: the node's wall-clock seconds
(`getFastClockSource()->now()`) and the configured
`gMaxAcceptableLogicalClockDriftSecs`. -/
structure RateEnv where
  wallClockSecs : Nat
  maxAcceptableDriftSecs : Nat
deriving DecidableEq, Repr

/-- The two uassert failures of `VectorClock::_ensurePassesRateLimiter`,
each carrying the failing component's field name. -/
inductive RateError where
  | clusterTimeFailsRateLimiter (componentName : String)
      (newTimeSecs wallClockSecs : Nat)
  | code40484 (componentName : String)
deriving DecidableEq, Repr

/-- Model of `VectorClock::_lessThanOrEqualToMaxPossibleTime`. -/
def lessThanOrEqualToMaxPossibleTime (time : LogicalTime) (nTicks : Nat) : Bool :=
  time.secs ≤ kMaxValue && time.inc ≤ kMaxValue - nTicks

/-- The condition of the drift uassert: both values are unsigned and
compared first, so the subtraction never wraps. -/
def rateDriftOK (env : RateEnv) (t : LogicalTime) : Bool :=
  t.secs ≤ env.wallClockSecs ||
    t.secs - env.wallClockSecs ≤ env.maxAcceptableDriftSecs

/-- The body of the rate-limiter loop for one component: the drift
uassert (`ClusterTimeFailsRateLimiter`) first, then the maximum-value
uassert (`40484`); a uassert whose condition holds falls through. -/
def checkRateComponent (env : RateEnv) (newTime : LogicalTimeArray)
    (c : Component) : Except RateError Unit :=
  if rateDriftOK env (newTime c) then
    if lessThanOrEqualToMaxPossibleTime (newTime c) 0 then
      .ok ()
    else
      .error (.code40484 (componentFieldName c))
  else
    .error (.clusterTimeFailsRateLimiter (componentFieldName c)
      (newTime c).secs env.wallClockSecs)

/-- The `for` loop of `_ensurePassesRateLimiter`: run the per-component
checks in iteration order, stopping at the first uassert. -/
def ensureLoop (env : RateEnv) (newTime : LogicalTimeArray) :
    List Component → Except RateError Unit
  | [] => .ok ()
  | c :: rest =>
      match checkRateComponent env newTime c with
      | .error e => .error e
      | .ok _ => ensureLoop env newTime rest

/-- Model of `VectorClock::_ensurePassesRateLimiter`: run the per-component checks
over the components in ordinal order. -/
def ensurePassesRateLimiter (env : RateEnv) (newTime : LogicalTimeArray) :
    Except RateError Unit :=
  ensureLoop env newTime componentList

/-- Whether a candidate tuple passes the rate limiter without throwing. -/
def ratePasses (env : RateEnv) (newTime : LogicalTimeArray) : Bool :=
  match ensurePassesRateLimiter env newTime with
  | .ok _ => true
  | .error _ => false

/-- The mutable state of a `VectorClock`: the authoritative tuple and the
`_isEnabled` policy flag. -/
structure VCState where
  vectorTime : LogicalTimeArray
  isEnabled : Bool

/-- Model of `VectorClock::getTime()`: a snapshot of `_vectorTime`. -/
def getTime (st : VCState) : LogicalTimeArray := st.vectorTime

/-- One slot of the max-merge loop of `_advanceTime`:
`if (*newIt > *it) *it = std::move(*newIt)`. -/
def mergeTime (old new : LogicalTime) : LogicalTime :=
  if LogicalTime.ltb old new then new else old

/-- Model of `VectorClock::_advanceTime`: run the rate limiter (which may throw),
then max-merge the candidate into `_vectorTime` component by component.
The `_isEnabled` flag is not consulted anywhere on this path. -/
def advanceTime (env : RateEnv) (st : VCState) (newTime : LogicalTimeArray) :
    Except RateError VCState :=
  match ensurePassesRateLimiter env newTime with
  | .error e => .error e
  | .ok _ =>
      .ok { st with vectorTime := fun c => mergeTime (st.vectorTime c) (newTime c) }

/-- The state the clock object is left in after a call to `_advanceTime`:
on a uassert the exception unwinds before the merge lock is taken, so the
object is unchanged. -/
def attemptAdvance (env : RateEnv) (st : VCState) (newTime : LogicalTimeArray) :
    VCState :=
  match advanceTime env st newTime with
  | .ok st' => st'
  | .error _ => st

/-- Model of `VectorClock::_disable()`. -/
def disable (st : VCState) : VCState := { st with isEnabled := false }

/-! ### Gossip-format strategies -/

/-- A `TimeProofService::TimeProof`: a 20-byte SHA-1 block, modelled as
its byte list. -/
def TimeProof := List Nat
deriving DecidableEq

/-- Default-constructed `TimeProofService::TimeProof()`: the default (dummy) all-zero proof. -/
def dummyTimeProof : TimeProof := List.replicate 20 0

/-- A `SignedLogicalTime`: time, optional proof, key id. -/
structure SignedLogicalTime where
  time : LogicalTime
  proof : Option TimeProof
  keyId : Int
deriving DecidableEq

/-- The `LogicalTimeValidator` collaborator: sign with possible key
refresh, best-effort sign, and validation of an incoming signed time. -/
structure LogicalTimeValidator where
  signLogicalTime : LogicalTime → SignedLogicalTime
  trySignLogicalTime : LogicalTime → SignedLogicalTime
  validate : SignedLogicalTime → Except String Unit

/-- The `AuthorizationSession` facts `Signed::in` reads from the client. -/
structure AuthSession where
  isAuthenticated : Bool
  isUsingLocalhostBypass : Bool
deriving DecidableEq, Repr

/-- The collaborators `GossipFormat::Signed` consults: whether an
`OperationContext` is present, whether its caller is authorized to
advance the clock (`LogicalTimeValidator::isAuthorizedToAdvanceClock`,
meaningful only with an opCtx), the host's auth-enabled flag, the
client's `AuthorizationSession` (possibly null), and the optional
`LogicalTimeValidator`. -/
structure SignedEnv where
  hasOpCtx : Bool
  isAuthorizedToAdvanceClock : Bool
  isAuthEnabled : Bool
  authSession : Option AuthSession
  validator : Option LogicalTimeValidator

/-- Model of `GossipFormat::Signed::out` (lines 211-260): the value written under
`_fieldName` when the function returns `true`, `none` when it returns
`false`. -/
def signedOut (env : SignedEnv) (permitRefresh : Bool) (time : LogicalTime) :
    Option SignedLogicalTime :=
  if env.hasOpCtx && env.isAuthorizedToAdvanceClock then
    some ⟨time, some dummyTimeProof, 0⟩
  else
    match env.validator with
    | none => none
    | some validator =>
        let signedTime :=
          if permitRefresh && env.hasOpCtx then validator.signLogicalTime time
          else validator.trySignLogicalTime time
        if signedTime.keyId == 0 then none else some signedTime

/-- The parsed content of a well-formed `$clusterTime` sub-document:
`clusterTime` timestamp, `signature.hash` bytes, `signature.keyId`. -/
structure SignedField where
  clusterTime : LogicalTime
  hashBytes : TimeProof
  keyId : Int
deriving DecidableEq

/-- The errors `Signed::in` can raise past the parsing stage. -/
inductive GossipInError where
  | cannotVerifyAndSignLogicalTime (msg : String)
  | validationFailed (msg : String)
deriving DecidableEq

/-- The message of the `CannotVerifyAndSignLogicalTime` uassert. -/
def cannotAcceptMsg : String :=
  "Cannot accept logicalTime. May not be a part of a sharded cluster"

/-- The validation tail of `Signed::in` (lines 321-330): callers
authorized to advance skip validation; otherwise a validator is required
(`CannotVerifyAndSignLogicalTime` if absent) and must accept. -/
def signedInValidate (env : SignedEnv) (signedTime : SignedLogicalTime) :
    Except GossipInError LogicalTime :=
  if ¬env.isAuthorizedToAdvanceClock then
    match env.validator with
    | none =>
        .error (.cannotVerifyAndSignLogicalTime cannotAcceptMsg)
    | some validator =>
        match validator.validate signedTime with
        | .ok _ => .ok signedTime.time
        | .error e => .error (.validationFailed e)
  else
    .ok signedTime.time

/-- The `SignedLogicalTime` `Signed::in` reconstructs from a well-formed
signed field (line 299): its proof is always present. -/
def parsedSignedTime (f : SignedField) : SignedLogicalTime :=
  ⟨f.clusterTime, some f.hashBytes, f.keyId⟩

/-- The unsigned-drop condition of `Signed::in` (lines 309-318): the
outer branch guard (`couldBeUnauthenticated`, auth enabled at the host,
proof absent or dummy) together with the inner session test (a session
exists, is unauthenticated, and does not use localhost bypass). -/
def signedDropApplies (env : SignedEnv) (couldBeUnauthenticated : Bool)
    (signedTime : SignedLogicalTime) : Bool :=
  (couldBeUnauthenticated && env.isAuthEnabled &&
      (signedTime.proof.isNone || signedTime.proof == some dummyTimeProof)) &&
    (match env.authSession with
     | some s => !s.isAuthenticated && !s.isUsingLocalhostBypass
     | none => false)

/-- Model of `GossipFormat::Signed::in` (lines 262-333) on a message whose signed
field is absent (`none`) or parsed well-formed (`some`): absent yields
the zero time; with no opCtx the time is accepted without verification;
the unsigned-drop branch returns zero; otherwise the validation tail
runs. -/
def signedIn (env : SignedEnv) (couldBeUnauthenticated : Bool)
    (field : Option SignedField) : Except GossipInError LogicalTime :=
  match field with
  | none => .ok LogicalTime.zero
  | some f =>
      if env.hasOpCtx = false then
        .ok (parsedSignedTime f).time
      else if signedDropApplies env couldBeUnauthenticated (parsedSignedTime f) then
        .ok LogicalTime.zero
      else
        signedInValidate env (parsedSignedTime f)

/-! ### Plain format and the FCV-gated wrapper -/

/-- The value a format's `out` appended to the message, when it did. -/
inductive WireValue where
  | plainTimestamp (t : LogicalTime)
  | signedDoc (s : SignedLogicalTime)
deriving DecidableEq

/-- Model of `GossipFormat::Plain::out` (lines 149-157): appends the bare
timestamp and always returns `true`. -/
def plainOut (time : LogicalTime) : Option WireValue :=
  some (.plainTimestamp time)

/-- The BSON element a plain component field can hold: a timestamp, or
some other element type (named). -/
inductive BSONElemVal where
  | timestamp (t : LogicalTime)
  | nonTimestamp (typeName : String)
deriving DecidableEq

/-- The `BadValue` uassert of `Plain::in`. -/
inductive PlainError where
  | badValue (fieldName : String)
deriving DecidableEq

/-- Model of `GossipFormat::Plain::in` (lines 159-173): an absent field gossips
nothing (zero time); a non-timestamp element uasserts `BadValue`; a
timestamp element is the time. -/
def plainIn (fieldName : String) :
    Option BSONElemVal → Except PlainError LogicalTime
  | none => .ok LogicalTime.zero
  | some (.timestamp t) => .ok t
  | some (.nonTimestamp _) => .error (.badValue fieldName)

/-- The feature-compatibility snapshot
`serverGlobalParams.featureCompatibility` as read by the wrapper. -/
inductive FCVersion where
  | kFullyDowngradedTo44
  | kUpgradingTo46
  | kDowngradingTo44
  | kFullyUpgradedTo46
deriving DecidableEq, Repr

structure FeatureCompatibility where
  isVersionInitialized : Bool
  version : FCVersion
deriving DecidableEq, Repr

/-- Model of `GossipFormat::OnlyGossipOutOnNewFCV::out` (lines 182-195): delegate
to the inner format's `out` only when the FCV snapshot is initialized
and equals `kFullyUpgradedTo46`; otherwise emit nothing. -/
def onlyGossipOutOnNewFCVOut (fcv : FeatureCompatibility)
    (innerOut : LogicalTime → Option WireValue) (time : LogicalTime) :
    Option WireValue :=
  if fcv.isVersionInitialized &&
      fcv.version == FCVersion.kFullyUpgradedTo46 then
    innerOut time
  else
    none

/-- Model of `GossipFormat::OnlyGossipOutOnNewFCV::in` (lines 197-203): always
delegate to the inner format's `in`. -/
def onlyGossipOutOnNewFCVIn {μ : Type} {ε : Type}
    (innerIn : μ → Except ε LogicalTime) (msg : μ) : Except ε LogicalTime :=
  innerIn msg

/-! ### Gossip-out orchestration -/

/-- Everything `_gossipOutComponent` needs: the `Signed` collaborators,
the FCV snapshot, and the `permitRefresh` flag. -/
structure GossipOutEnv where
  signedEnv : SignedEnv
  fcv : FeatureCompatibility
  permitRefresh : Bool

/-- What the registry formatter for a component writes on `out`
(`GossipFormat::_formatters`: ClusterTime bound to `Signed`, ConfigTime
to `OnlyGossipOutOnNewFCV<Plain>`); `none` when `out` returned
`false`. -/
def formatterOut (env : GossipOutEnv) (time : LogicalTime) :
    Component → Option WireValue
  | .clusterTime =>
      (signedOut env.signedEnv env.permitRefresh time).map WireValue.signedDoc
  | .configTime => onlyGossipOutOnNewFCVOut env.fcv plainOut time

/-- Model of `VectorClock::_gossipOutComponent` (lines 379-386): invoke the
component's formatter, keep what it wrote, and return its `wasOutput`
result only for ClusterTime, `false` for every other component. -/
def gossipOutComponent (env : GossipOutEnv) (time : LogicalTimeArray)
    (c : Component) : Option WireValue × Bool :=
  let written := formatterOut env (time c) c
  let wasOutput := written.isSome
  (written, if c = Component.clusterTime then wasOutput else false)

/-- A sequence of `_advanceTime` calls, each with the wall clock and
drift budget in effect at that call; on a uassert the object is left
unchanged and the sequence continues. -/
def runAdvances (st : VCState) (steps : List (RateEnv × LogicalTimeArray)) :
    VCState :=
  steps.foldl (fun s p => attemptAdvance p.1 s p.2) st

/-! ### Concrete states and environments used by witnesses -/

/-- A concrete initial state for witnesses: the scenario tuple
`(100,5), (50,2)` with the clock enabled. -/
def stW : VCState :=
  ⟨fun c => match c with
    | .clusterTime => ⟨100, 5⟩
    | .configTime => ⟨50, 2⟩, true⟩

/-- A concrete advance sequence for witnesses: two tuples, both passing
the rate limiter at wall clock 1000 with drift budget 60. -/
def stepsW : List (RateEnv × LogicalTimeArray) :=
  [(⟨1000, 60⟩, fun c => match c with
      | .clusterTime => ⟨90, 9⟩
      | .configTime => ⟨60, 0⟩),
   (⟨1005, 60⟩, fun c => match c with
      | .clusterTime => ⟨1060, 0⟩
      | .configTime => ⟨0, 0⟩)]

/-- A candidate whose ClusterTime slot passes the rate limiter at wall
clock 1000 / drift 60 while its ConfigTime slot violates the drift
bound. -/
def candC3 : LogicalTimeArray := fun c =>
  match c with
  | .clusterTime => ⟨1050, 3⟩
  | .configTime => ⟨1061, 0⟩

/-- The all-zero tuple. -/
def vtZero : LogicalTimeArray := fun _ => LogicalTime.zero

/-- A freshly zeroed clock after `_disable()` was called. -/
def stDisabled : VCState := disable ⟨vtZero, true⟩

/-- A candidate tuple passing the rate limiter at wall clock 1000. -/
def candC4 : LogicalTimeArray := fun _ => ⟨100, 5⟩

/-- An environment with an opCtx, auth enabled, and an unauthenticated
non-bypass session. -/
def envDrop : SignedEnv := ⟨true, false, true, some ⟨false, false⟩, none⟩

/-- A well-formed signed field carrying the dummy proof. -/
def fDummy : SignedField := ⟨⟨100, 5⟩, dummyTimeProof, 0⟩

/-- An environment with no opCtx. -/
def envNoOp : SignedEnv := ⟨false, false, true, none, none⟩

/-- An environment with an opCtx, auth enabled, but a null
`AuthorizationSession` and no validator. -/
def envNullSession : SignedEnv := ⟨true, false, true, none, none⟩

/-- An authorized caller's environment: an opCtx whose client may advance
the clock, no validator installed. -/
def envAuthorized : SignedEnv := ⟨true, true, false, none, none⟩

/-- An environment whose FCV gate is open, so the ConfigTime formatter
does write even though the return value ignores it. -/
def envGossip : GossipOutEnv :=
  ⟨⟨true, true, false, none, none⟩, ⟨true, .kFullyUpgradedTo46⟩, false⟩

/-! ### Order lemmas for the lexicographic merge -/

theorem leb_refl (a : LogicalTime) : a.leb a = true := by
  simp [LogicalTime.leb]

theorem ltb_imp_leb {a b : LogicalTime} (h : a.ltb b = true) : a.leb b = true := by
  simp only [LogicalTime.ltb, Bool.or_eq_true, Bool.and_eq_true,
    decide_eq_true_eq, beq_iff_eq] at h
  simp only [LogicalTime.leb, Bool.or_eq_true, Bool.and_eq_true,
    decide_eq_true_eq, beq_iff_eq]
  omega

theorem not_ltb_imp_leb {a b : LogicalTime} (h : ¬a.ltb b = true) :
    b.leb a = true := by
  simp only [LogicalTime.ltb, Bool.or_eq_true, Bool.and_eq_true,
    decide_eq_true_eq, beq_iff_eq, not_or, not_and] at h
  simp only [LogicalTime.leb, Bool.or_eq_true, Bool.and_eq_true,
    decide_eq_true_eq, beq_iff_eq]
  omega

theorem leb_trans {a b c : LogicalTime} (hab : a.leb b = true)
    (hbc : b.leb c = true) : a.leb c = true := by
  simp only [LogicalTime.leb, Bool.or_eq_true, Bool.and_eq_true,
    decide_eq_true_eq, beq_iff_eq] at *
  omega

theorem mergeTime_eq_or (a b : LogicalTime) :
    mergeTime a b = a ∨ mergeTime a b = b := by
  unfold mergeTime
  split <;> simp

theorem leb_mergeTime_left (a b : LogicalTime) :
    a.leb (mergeTime a b) = true := by
  unfold mergeTime
  split
  · exact ltb_imp_leb (by assumption)
  · exact leb_refl a

theorem leb_mergeTime_right (a b : LogicalTime) :
    b.leb (mergeTime a b) = true := by
  unfold mergeTime
  split
  · exact leb_refl b
  · exact not_ltb_imp_leb (by assumption)

/-- Folding `mergeTime` lands on one of its inputs. -/
theorem foldl_mergeTime_mem (x : LogicalTime) (l : List LogicalTime) :
    l.foldl mergeTime x ∈ x :: l := by
  induction l generalizing x with
  | nil => simp
  | cons y t ih =>
      have h := ih (mergeTime x y)
      rcases List.mem_cons.mp h with h' | h'
      · rcases mergeTime_eq_or x y with e | e
        · exact List.mem_cons.mpr (Or.inl (h'.trans e))
        · exact List.mem_cons.mpr (Or.inr (List.mem_cons.mpr (Or.inl (h'.trans e))))
      · exact List.mem_cons.mpr (Or.inr (List.mem_cons.mpr (Or.inr h')))

/-- Folding `mergeTime` gives an upper bound of its inputs. -/
theorem foldl_mergeTime_ub (x : LogicalTime) (l : List LogicalTime) :
    ∀ y ∈ x :: l, y.leb (l.foldl mergeTime x) = true := by
  induction l generalizing x with
  | nil =>
      intro y hy
      simp only [List.mem_singleton] at hy
      subst hy
      exact leb_refl y
  | cons z t ih =>
      intro y hy
      rcases List.mem_cons.mp hy with h | h
      · subst h
        exact leb_trans (leb_mergeTime_left y z)
          (ih (mergeTime y z) _ (List.mem_cons_self _ _))
      · rcases List.mem_cons.mp h with h' | h'
        · subst h'
          exact leb_trans (leb_mergeTime_right x y)
            (ih (mergeTime x y) _ (List.mem_cons_self _ _))
        · exact ih (mergeTime x z) y (List.mem_cons.mpr (Or.inr h'))

/-- When the candidate passes the rate limiter, `_advanceTime` is exactly
the componentwise max-merge. -/
theorem attemptAdvance_of_passes {env : RateEnv} {st : VCState}
    {newTime : LogicalTimeArray} (h : ratePasses env newTime = true) :
    attemptAdvance env st newTime =
      { st with vectorTime := fun c => mergeTime (st.vectorTime c) (newTime c) } := by
  unfold attemptAdvance advanceTime
  unfold ratePasses at h
  cases hE : ensurePassesRateLimiter env newTime with
  | ok u => rfl
  | error e => rw [hE] at h; simp at h

/-- Running all-passing steps computes the per-component fold of
`mergeTime`. -/
theorem runAdvances_eq_fold (st : VCState)
    (steps : List (RateEnv × LogicalTimeArray))
    (h : ∀ p ∈ steps, ratePasses p.1 p.2 = true) (c : Component) :
    getTime (runAdvances st steps) c =
      (steps.map (fun p => p.2 c)).foldl mergeTime (getTime st c) := by
  induction steps generalizing st with
  | nil => rfl
  | cons p t ih =>
      have hp : ratePasses p.1 p.2 = true := h p (List.mem_cons_self _ _)
      have ht : ∀ q ∈ t, ratePasses q.1 q.2 = true :=
        fun q hq => h q (List.mem_cons.mpr (Or.inr hq))
      show getTime (runAdvances (attemptAdvance p.1 st p.2) t) c = _
      rw [ih (attemptAdvance p.1 st p.2) ht]
      rw [attemptAdvance_of_passes hp]
      rfl

/-- C1: for every initial clock state and every sequence of candidate
tuples each of which passes the rate limiter, after applying
`_advanceTime` to each in order, `getTime()[c]` is the componentwise
maximum of the initial value and the candidates' values at `c`: it is an
upper bound of all of them in the lexicographic order and is one of
them. -/
theorem advance_yields_componentwise_max (st : VCState)
    (steps : List (RateEnv × LogicalTimeArray))
    (h : ∀ p ∈ steps, ratePasses p.1 p.2 = true) (c : Component) :
    getTime (runAdvances st steps) c
        ∈ getTime st c :: steps.map (fun p => p.2 c) ∧
      ∀ x ∈ getTime st c :: steps.map (fun p => p.2 c),
        x.leb (getTime (runAdvances st steps) c) = true := by
  rw [runAdvances_eq_fold st steps h c]
  exact ⟨foldl_mergeTime_mem _ _, foldl_mergeTime_ub _ _⟩

/-- Witness for C1 at the concrete state and sequence above. -/
theorem advance_yields_componentwise_max_witness :
    (∀ p ∈ stepsW, ratePasses p.1 p.2 = true) ∧
      (getTime (runAdvances stW stepsW) Component.clusterTime
          ∈ getTime stW Component.clusterTime
            :: stepsW.map (fun p => p.2 Component.clusterTime) ∧
        ∀ x ∈ getTime stW Component.clusterTime
            :: stepsW.map (fun p => p.2 Component.clusterTime),
          x.leb (getTime (runAdvances stW stepsW) Component.clusterTime) = true) :=
  ⟨by decide, advance_yields_componentwise_max stW stepsW (by decide)
    Component.clusterTime⟩

/-! ### Rate-limiter characterization -/

theorem rateDriftOK_iff (env : RateEnv) (t : LogicalTime) :
    rateDriftOK env t = true ↔
      (t.secs ≤ env.wallClockSecs ∨
        t.secs - env.wallClockSecs ≤ env.maxAcceptableDriftSecs) := by
  simp [rateDriftOK]

theorem maxPossible_iff (t : LogicalTime) :
    lessThanOrEqualToMaxPossibleTime t 0 = true ↔
      (t.secs ≤ kMaxValue ∧ t.inc ≤ kMaxValue) := by
  simp [lessThanOrEqualToMaxPossibleTime]

theorem checkRateComponent_ok_iff (env : RateEnv) (newTime : LogicalTimeArray)
    (c : Component) :
    checkRateComponent env newTime c = .ok () ↔
      (((newTime c).secs ≤ env.wallClockSecs ∨
          (newTime c).secs - env.wallClockSecs ≤ env.maxAcceptableDriftSecs) ∧
        ((newTime c).secs ≤ kMaxValue ∧ (newTime c).inc ≤ kMaxValue)) := by
  unfold checkRateComponent
  by_cases h1 : rateDriftOK env (newTime c) = true
  · by_cases h2 : lessThanOrEqualToMaxPossibleTime (newTime c) 0 = true
    · rw [if_pos h1, if_pos h2]
      exact iff_of_true rfl
        ⟨(rateDriftOK_iff env (newTime c)).mp h1,
         (maxPossible_iff (newTime c)).mp h2⟩
    · rw [if_pos h1, if_neg h2]
      exact iff_of_false (by simp)
        (fun hP => h2 ((maxPossible_iff (newTime c)).mpr hP.2))
  · rw [if_neg h1]
    exact iff_of_false (by simp)
      (fun hP => h1 ((rateDriftOK_iff env (newTime c)).mpr hP.1))

theorem checkRateComponent_drift_error {env : RateEnv}
    {newTime : LogicalTimeArray} {c : Component} {n : String} {s w : Nat}
    (h : checkRateComponent env newTime c =
      .error (.clusterTimeFailsRateLimiter n s w)) :
    n = componentFieldName c ∧ s = (newTime c).secs ∧ w = env.wallClockSecs ∧
      ¬((newTime c).secs ≤ env.wallClockSecs ∨
        (newTime c).secs - env.wallClockSecs ≤ env.maxAcceptableDriftSecs) := by
  unfold checkRateComponent at h
  by_cases h1 : rateDriftOK env (newTime c) = true
  · rw [if_pos h1] at h
    by_cases h2 : lessThanOrEqualToMaxPossibleTime (newTime c) 0 = true
    · rw [if_pos h2] at h; exact absurd h (by simp)
    · rw [if_neg h2] at h; exact absurd h (by simp)
  · rw [if_neg h1] at h
    simp only [Except.error.injEq,
      RateError.clusterTimeFailsRateLimiter.injEq] at h
    refine ⟨h.1.symm, h.2.1.symm, h.2.2.symm, ?_⟩
    exact fun hP => h1 ((rateDriftOK_iff env (newTime c)).mpr hP)

theorem checkRateComponent_max_error {env : RateEnv}
    {newTime : LogicalTimeArray} {c : Component} {n : String}
    (h : checkRateComponent env newTime c = .error (.code40484 n)) :
    n = componentFieldName c ∧
      ¬((newTime c).secs ≤ kMaxValue ∧ (newTime c).inc ≤ kMaxValue) := by
  unfold checkRateComponent at h
  by_cases h1 : rateDriftOK env (newTime c) = true
  · rw [if_pos h1] at h
    by_cases h2 : lessThanOrEqualToMaxPossibleTime (newTime c) 0 = true
    · rw [if_pos h2] at h; exact absurd h (by simp)
    · rw [if_neg h2] at h
      simp only [Except.error.injEq, RateError.code40484.injEq] at h
      refine ⟨h.symm, ?_⟩
      exact fun hP => h2 ((maxPossible_iff (newTime c)).mpr hP)
  · rw [if_neg h1] at h; exact absurd h (by simp)

/-- The two-component loop of `_ensurePassesRateLimiter`, unfolded. -/
theorem ensurePassesRateLimiter_unfold (env : RateEnv)
    (newTime : LogicalTimeArray) :
    ensurePassesRateLimiter env newTime =
      match checkRateComponent env newTime .clusterTime with
      | .error e => .error e
      | .ok _ => checkRateComponent env newTime .configTime := by
  show ensureLoop env newTime [.clusterTime, .configTime] = _
  cases h1 : checkRateComponent env newTime .clusterTime with
  | error e => simp [ensureLoop, h1]
  | ok u =>
      cases u
      cases h2 : checkRateComponent env newTime .configTime with
      | error e => simp [ensureLoop, h1, h2]
      | ok v => cases v; simp [ensureLoop, h1, h2]

theorem ratePasses_iff_forall (env : RateEnv) (newTime : LogicalTimeArray) :
    ratePasses env newTime = true ↔
      ∀ c : Component,
        (((newTime c).secs ≤ env.wallClockSecs ∨
            (newTime c).secs - env.wallClockSecs ≤ env.maxAcceptableDriftSecs) ∧
          ((newTime c).secs ≤ kMaxValue ∧ (newTime c).inc ≤ kMaxValue)) := by
  unfold ratePasses
  rw [ensurePassesRateLimiter_unfold]
  constructor
  · intro hp c
    cases h1 : checkRateComponent env newTime .clusterTime with
    | error e => rw [h1] at hp; simp at hp
    | ok u =>
        cases u
        rw [h1] at hp
        cases h2 : checkRateComponent env newTime .configTime with
        | error e => rw [h2] at hp; simp at hp
        | ok v =>
            cases c
            · exact (checkRateComponent_ok_iff env newTime .clusterTime).mp h1
            · exact (checkRateComponent_ok_iff env newTime .configTime).mp h2
  · intro hall
    have h1 : checkRateComponent env newTime .clusterTime = .ok () :=
      (checkRateComponent_ok_iff env newTime .clusterTime).mpr (hall .clusterTime)
    have h2 : checkRateComponent env newTime .configTime = .ok () :=
      (checkRateComponent_ok_iff env newTime .configTime).mpr (hall .configTime)
    rw [h1, h2]

/-- C2: the rate limiter accepts a candidate tuple iff every component
satisfies both the drift condition and the maximum-value condition; a
drift rejection surfaces as `ClusterTimeFailsRateLimiter` naming the
field name of a component violating the drift condition (and echoing its
seconds and the wall clock), and a maximum-value rejection surfaces as
error code `40484` naming the field name of a component violating the
maximum-value condition. -/
theorem rateLimiter_accept_iff_and_errors (env : RateEnv)
    (newTime : LogicalTimeArray) :
    (ratePasses env newTime = true ↔
      ∀ c : Component,
        (((newTime c).secs ≤ env.wallClockSecs ∨
            (newTime c).secs - env.wallClockSecs ≤ env.maxAcceptableDriftSecs) ∧
          ((newTime c).secs ≤ kMaxValue ∧ (newTime c).inc ≤ kMaxValue))) ∧
    (∀ n s w, ensurePassesRateLimiter env newTime =
        .error (.clusterTimeFailsRateLimiter n s w) →
      ∃ c : Component, n = componentFieldName c ∧ s = (newTime c).secs ∧
        w = env.wallClockSecs ∧
        ¬((newTime c).secs ≤ env.wallClockSecs ∨
          (newTime c).secs - env.wallClockSecs ≤ env.maxAcceptableDriftSecs)) ∧
    (∀ n, ensurePassesRateLimiter env newTime = .error (.code40484 n) →
      ∃ c : Component, n = componentFieldName c ∧
        ¬((newTime c).secs ≤ kMaxValue ∧ (newTime c).inc ≤ kMaxValue)) := by
  refine ⟨ratePasses_iff_forall env newTime, ?_, ?_⟩
  · intro n s w h
    rw [ensurePassesRateLimiter_unfold] at h
    cases h1 : checkRateComponent env newTime .clusterTime with
    | error e =>
        rw [h1] at h
        simp only [Except.error.injEq] at h
        subst h
        obtain ⟨hn, hs, hw, hd⟩ := checkRateComponent_drift_error h1
        exact ⟨.clusterTime, hn, hs, hw, hd⟩
    | ok u =>
        cases u
        rw [h1] at h
        obtain ⟨hn, hs, hw, hd⟩ := checkRateComponent_drift_error h
        exact ⟨.configTime, hn, hs, hw, hd⟩
  · intro n h
    rw [ensurePassesRateLimiter_unfold] at h
    cases h1 : checkRateComponent env newTime .clusterTime with
    | error e =>
        rw [h1] at h
        simp only [Except.error.injEq] at h
        subst h
        obtain ⟨hn, hm⟩ := checkRateComponent_max_error h1
        exact ⟨.clusterTime, hn, hm⟩
    | ok u =>
        cases u
        rw [h1] at h
        obtain ⟨hn, hm⟩ := checkRateComponent_max_error h
        exact ⟨.configTime, hn, hm⟩

/-- Witness for C2: the boundary candidate at exactly wall clock plus the
drift budget is accepted. -/
theorem rateLimiter_accept_witness :
    ratePasses ⟨1000, 60⟩ (fun _ => ⟨1060, 0⟩) = true :=
  ((rateLimiter_accept_iff_and_errors ⟨1000, 60⟩ (fun _ => ⟨1060, 0⟩)).1).mpr
    (by decide)

/-! ### Atomicity of the advance path -/

/-- C3: if any component of the candidate fails the rate limiter (drift
or maximum-value check), `_advanceTime` raises and `_vectorTime` is left
completely unchanged for every component, including components that
individually pass. -/
theorem advanceTime_atomic_on_failure (env : RateEnv) (st : VCState)
    (newTime : LogicalTimeArray)
    (h : ∃ c : Component,
      ¬(((newTime c).secs ≤ env.wallClockSecs ∨
          (newTime c).secs - env.wallClockSecs ≤ env.maxAcceptableDriftSecs) ∧
        ((newTime c).secs ≤ kMaxValue ∧ (newTime c).inc ≤ kMaxValue))) :
    (∃ e, advanceTime env st newTime = .error e) ∧
      attemptAdvance env st newTime = st ∧
      ∀ c, getTime (attemptAdvance env st newTime) c = getTime st c := by
  rcases h with ⟨c, hc⟩
  have hnp : ¬ratePasses env newTime = true :=
    fun ht => hc ((ratePasses_iff_forall env newTime).mp ht c)
  cases hE : ensurePassesRateLimiter env newTime with
  | ok u =>
      exfalso
      apply hnp
      unfold ratePasses
      rw [hE]
  | error e =>
      have hAdv : advanceTime env st newTime = .error e := by
        unfold advanceTime
        rw [hE]
      have hAtt : attemptAdvance env st newTime = st := by
        unfold attemptAdvance
        rw [hAdv]
      exact ⟨⟨e, hAdv⟩, hAtt, fun c' => by rw [hAtt]⟩

/-- Witness for C3 at a concrete mixed candidate. -/
theorem advanceTime_atomic_on_failure_witness :
    (∃ c : Component,
      ¬(((candC3 c).secs ≤ (1000 : Nat) ∨
          (candC3 c).secs - 1000 ≤ (60 : Nat)) ∧
        ((candC3 c).secs ≤ kMaxValue ∧ (candC3 c).inc ≤ kMaxValue))) ∧
      ((∃ e, advanceTime ⟨1000, 60⟩ stW candC3 = .error e) ∧
        attemptAdvance ⟨1000, 60⟩ stW candC3 = stW ∧
        ∀ c, getTime (attemptAdvance ⟨1000, 60⟩ stW candC3) c =
          getTime stW c) :=
  ⟨by decide, advanceTime_atomic_on_failure ⟨1000, 60⟩ stW candC3 (by decide)⟩

/-! ### The `_isEnabled` flag and the advance path -/

/-- Counterexample to C4: with `_isEnabled = false`, a passing candidate
is still merged by `_advanceTime`, and `getTime()` changes. -/
theorem disabled_clock_still_advances :
    stDisabled.isEnabled = false ∧
      ratePasses ⟨1000, 60⟩ candC4 = true ∧
      getTime (attemptAdvance ⟨1000, 60⟩ stDisabled candC4)
          Component.clusterTime ≠
        getTime stDisabled Component.clusterTime := by
  decide

/-- C4 amended: `_advanceTime` never consults `_isEnabled`; whatever the
flag's value, a candidate that passes the rate limiter is max-merged into
`_vectorTime` exactly as when the clock is enabled, and the flag itself
is left untouched. -/
theorem advanceTime_ignores_isEnabled (env : RateEnv)
    (vt newTime : LogicalTimeArray) (b : Bool)
    (h : ratePasses env newTime = true) :
    advanceTime env ⟨vt, b⟩ newTime =
      .ok ⟨fun c => mergeTime (vt c) (newTime c), b⟩ := by
  unfold advanceTime
  unfold ratePasses at h
  cases hE : ensurePassesRateLimiter env newTime with
  | ok u => rfl
  | error e => rw [hE] at h; simp at h

/-- Witness for the amended C4 on a disabled clock. -/
theorem advanceTime_ignores_isEnabled_witness :
    ratePasses ⟨1000, 60⟩ candC4 = true ∧
      advanceTime ⟨1000, 60⟩ ⟨vtZero, false⟩ candC4 =
        .ok ⟨fun c => mergeTime (vtZero c) (candC4 c), false⟩ :=
  ⟨by decide,
    advanceTime_ignores_isEnabled ⟨1000, 60⟩ vtZero candC4 false (by decide)⟩

/-! ### `Signed::in` policy -/

/-- C5: a signed field carrying a dummy proof, arriving with
`couldBeUnauthenticated` set while auth is enabled at the host, from a
client whose session is unauthenticated and not using localhost bypass,
yields the zero `LogicalTime` without any error; and merging the zero
time into any clock slot leaves that slot unchanged. -/
theorem signedIn_unsigned_drop (env : SignedEnv) (cbu : Bool)
    (f : SignedField) (hOp : env.hasOpCtx = true) (hCbu : cbu = true)
    (hAuth : env.isAuthEnabled = true) (hDummy : f.hashBytes = dummyTimeProof)
    (s : AuthSession) (hS : env.authSession = some s)
    (hNotAuth : s.isAuthenticated = false)
    (hNoBypass : s.isUsingLocalhostBypass = false) :
    signedIn env cbu (some f) = .ok LogicalTime.zero ∧
      ∀ old : LogicalTime, mergeTime old LogicalTime.zero = old := by
  constructor
  · have hDrop : signedDropApplies env cbu (parsedSignedTime f) = true := by
      unfold signedDropApplies parsedSignedTime
      rw [hS, hCbu, hAuth, hDummy]
      simp [hNotAuth, hNoBypass]
    unfold signedIn
    rw [hOp]
    simp [hDrop]
  · intro old
    unfold mergeTime
    simp [LogicalTime.ltb, LogicalTime.zero]

/-- Witness for C5. -/
theorem signedIn_unsigned_drop_witness :
    signedIn envDrop true (some fDummy) = .ok LogicalTime.zero ∧
      ∀ old : LogicalTime, mergeTime old LogicalTime.zero = old :=
  signedIn_unsigned_drop envDrop true fDummy rfl rfl rfl rfl
    ⟨false, false⟩ rfl rfl rfl

/-- C7: with a null operation context, `Signed::in` returns the extracted
time unconditionally — whatever the auth state, session, validator,
proof, or `couldBeUnauthenticated` flag. -/
theorem signedIn_no_opCtx (env : SignedEnv) (cbu : Bool) (f : SignedField)
    (h : env.hasOpCtx = false) :
    signedIn env cbu (some f) = .ok f.clusterTime := by
  unfold signedIn
  rw [h]
  rfl

/-- Witness for C7. -/
theorem signedIn_no_opCtx_witness :
    signedIn envNoOp true (some fDummy) = .ok fDummy.clusterTime :=
  signedIn_no_opCtx envNoOp true fDummy rfl

/-- C10: with an opCtx present, `Signed::in` deviates from the validation
tail only by dropping to the zero time, and any such drop requires an
`AuthorizationSession` that exists, is unauthenticated, and is not using
localhost bypass; in particular when `AuthorizationSession::get` returns
null the time is not dropped and processing continues to the validation
step. -/
theorem signedIn_null_session_not_dropped (env : SignedEnv) (cbu : Bool)
    (f : SignedField) (hOp : env.hasOpCtx = true) :
    (env.authSession = none →
      signedIn env cbu (some f) = signedInValidate env (parsedSignedTime f)) ∧
    (signedIn env cbu (some f) ≠ signedInValidate env (parsedSignedTime f) →
      signedIn env cbu (some f) = .ok LogicalTime.zero ∧
        ∃ s : AuthSession, env.authSession = some s ∧
          s.isAuthenticated = false ∧ s.isUsingLocalhostBypass = false) := by
  have hRed : signedIn env cbu (some f) =
      if signedDropApplies env cbu (parsedSignedTime f) then
        .ok LogicalTime.zero
      else signedInValidate env (parsedSignedTime f) := by
    unfold signedIn
    rw [hOp]
    rfl
  by_cases hd : signedDropApplies env cbu (parsedSignedTime f) = true
  · rw [if_pos hd] at hRed
    have hsess := hd
    unfold signedDropApplies at hsess
    rw [Bool.and_eq_true] at hsess
    constructor
    · intro hnone
      rw [hnone] at hsess
      exact absurd hsess.2 (by simp)
    · intro _
      refine ⟨hRed, ?_⟩
      cases hA : env.authSession with
      | none => rw [hA] at hsess; exact absurd hsess.2 (by simp)
      | some s =>
          rw [hA] at hsess
          have := hsess.2
          simp only [Bool.and_eq_true, Bool.not_eq_true'] at this
          exact ⟨s, rfl, this.1, this.2⟩
  · rw [if_neg hd] at hRed
    exact ⟨fun _ => hRed, fun hne => absurd hRed hne⟩

/-- Witness for C10: with a null session the dummy-proof time reaches the
validation tail. -/
theorem signedIn_null_session_not_dropped_witness :
    signedIn envNullSession true (some fDummy) =
      signedInValidate envNullSession (parsedSignedTime fDummy) :=
  (signedIn_null_session_not_dropped envNullSession true fDummy rfl).1 rfl

/-! ### `Signed::out` policy -/

/-- C6: `Signed::out` writes the field and returns `true` iff either the
caller is authorized to advance the clock (then it emits the time with a
dummy proof and `keyId = 0`), or a validator exists and the sign call it
selects yields a nonzero key id; with no validator, or a signed time
whose key id is `0`, nothing is written. -/
theorem signedOut_writes_iff (env : SignedEnv) (permitRefresh : Bool)
    (t : LogicalTime) :
    ((signedOut env permitRefresh t).isSome = true ↔
      (env.hasOpCtx = true ∧ env.isAuthorizedToAdvanceClock = true) ∨
      (∃ v : LogicalTimeValidator, env.validator = some v ∧
        (if (permitRefresh && env.hasOpCtx) = true then v.signLogicalTime t
         else v.trySignLogicalTime t).keyId ≠ 0)) ∧
    (env.hasOpCtx = true → env.isAuthorizedToAdvanceClock = true →
      signedOut env permitRefresh t = some ⟨t, some dummyTimeProof, 0⟩) := by
  unfold signedOut
  by_cases hA : (env.hasOpCtx && env.isAuthorizedToAdvanceClock) = true
  · rw [if_pos hA]
    rw [Bool.and_eq_true] at hA
    exact ⟨iff_of_true (by simp) (Or.inl hA), fun _ _ => rfl⟩
  · have hA2 : ¬(env.hasOpCtx = true ∧ env.isAuthorizedToAdvanceClock = true) := by
      rw [← Bool.and_eq_true]
      exact hA
    rw [if_neg hA]
    cases hV : env.validator with
    | none =>
        refine ⟨iff_of_false (by simp) ?_, fun h1 h2 => absurd ⟨h1, h2⟩ hA2⟩
        rintro (h | ⟨v, hv, _⟩)
        · exact hA2 h
        · exact absurd hv (by simp)
    | some v =>
        refine ⟨?_, fun h1 h2 => absurd ⟨h1, h2⟩ hA2⟩
        show (if ((if (permitRefresh && env.hasOpCtx) = true
              then v.signLogicalTime t else v.trySignLogicalTime t).keyId
                == 0) = true then none
            else some (if (permitRefresh && env.hasOpCtx) = true
              then v.signLogicalTime t
              else v.trySignLogicalTime t)).isSome = true ↔ _
        generalize hG : (if (permitRefresh && env.hasOpCtx) = true
          then v.signLogicalTime t else v.trySignLogicalTime t) = sT
        by_cases hk : (sT.keyId == 0) = true
        · rw [if_pos hk]
          refine iff_of_false (by simp) ?_
          rintro (h | ⟨v', hv', hk'⟩)
          · exact hA2 h
          · have hvv : v' = v := (Option.some.inj hv').symm
            subst hvv
            rw [hG] at hk'
            exact hk' (eq_of_beq hk)
        · rw [if_neg hk]
          refine iff_of_true (by simp) (Or.inr ⟨v, rfl, ?_⟩)
          rw [hG]
          exact fun h0 => hk (by simp [h0])

/-- Witness for C6: the authorized caller receives a dummy-signed time
with key id 0. -/
theorem signedOut_writes_iff_witness :
    signedOut envAuthorized false ⟨100, 5⟩ =
      some ⟨⟨100, 5⟩, some dummyTimeProof, 0⟩ :=
  (signedOut_writes_iff envAuthorized false ⟨100, 5⟩).2 rfl rfl

/-! ### The FCV gate -/

/-- C8: `OnlyGossipOutOnNewFCV::out` delegates to the inner format
exactly when the FCV snapshot is initialized and equals the
fully-upgraded sentinel, and emits nothing in every other case;
`OnlyGossipOutOnNewFCV::in` always delegates to the inner format. -/
theorem onlyGossipOutOnNewFCV_gate (fcv : FeatureCompatibility)
    (innerOut : LogicalTime → Option WireValue) (t : LogicalTime)
    {μ ε : Type} (innerIn : μ → Except ε LogicalTime) (m : μ) :
    (fcv.isVersionInitialized = true ∧
        fcv.version = FCVersion.kFullyUpgradedTo46 →
      onlyGossipOutOnNewFCVOut fcv innerOut t = innerOut t) ∧
    (¬(fcv.isVersionInitialized = true ∧
        fcv.version = FCVersion.kFullyUpgradedTo46) →
      onlyGossipOutOnNewFCVOut fcv innerOut t = none) ∧
    onlyGossipOutOnNewFCVIn innerIn m = innerIn m := by
  refine ⟨?_, ?_, rfl⟩
  · rintro ⟨h1, h2⟩
    unfold onlyGossipOutOnNewFCVOut
    rw [h1, h2]
    simp
  · intro h
    have hcond : ¬((fcv.isVersionInitialized &&
        (fcv.version == FCVersion.kFullyUpgradedTo46)) = true) := by
      simpa [Bool.and_eq_true] using h
    unfold onlyGossipOutOnNewFCVOut
    rw [if_neg hcond]

/-- Witness for C8: output suppressed under an uninitialized FCV, input
delegated to `Plain::in`. -/
theorem onlyGossipOutOnNewFCV_gate_witness :
    onlyGossipOutOnNewFCVOut ⟨false, .kFullyUpgradedTo46⟩ plainOut ⟨50, 2⟩
        = none ∧
      onlyGossipOutOnNewFCVIn (plainIn (componentFieldName .configTime))
          (some (.timestamp ⟨50, 2⟩)) =
        plainIn (componentFieldName .configTime)
          (some (.timestamp ⟨50, 2⟩)) :=
  ⟨(onlyGossipOutOnNewFCV_gate ⟨false, .kFullyUpgradedTo46⟩ plainOut ⟨50, 2⟩
      (plainIn (componentFieldName .configTime))
      (some (.timestamp ⟨50, 2⟩))).2.1 (by simp),
   (onlyGossipOutOnNewFCV_gate ⟨false, .kFullyUpgradedTo46⟩ plainOut ⟨50, 2⟩
      (plainIn (componentFieldName .configTime))
      (some (.timestamp ⟨50, 2⟩))).2.2⟩

/-! ### Gossip-out return value -/

/-- C9: `_gossipOutComponent` returns the `Signed` formatter's
`wasOutput` for the ClusterTime component, and returns `false` for every
other component while still writing whatever that component's formatter
produced. -/
theorem gossipOutComponent_return (env : GossipOutEnv)
    (time : LogicalTimeArray) :
    ((gossipOutComponent env time Component.clusterTime).2 =
      (signedOut env.signedEnv env.permitRefresh
        (time Component.clusterTime)).isSome) ∧
    ∀ c : Component, c ≠ Component.clusterTime →
      (gossipOutComponent env time c).1 = formatterOut env (time c) c ∧
        (gossipOutComponent env time c).2 = false := by
  constructor
  · cases hS : signedOut env.signedEnv env.permitRefresh
        (time Component.clusterTime) with
    | none => simp [gossipOutComponent, formatterOut, hS]
    | some s => simp [gossipOutComponent, formatterOut, hS]
  · intro c hc
    cases c with
    | clusterTime => exact absurd rfl hc
    | configTime => exact ⟨rfl, rfl⟩

/-- Witness for C9: ConfigTime is written yet the return is `false`. -/
theorem gossipOutComponent_return_witness :
    (gossipOutComponent envGossip stW.vectorTime Component.configTime).1.isSome
        = true ∧
      (gossipOutComponent envGossip stW.vectorTime Component.configTime).2 =
        false :=
  ⟨by decide,
   ((gossipOutComponent_return envGossip stW.vectorTime).2
      Component.configTime (by decide)).2⟩

end VectorClockSpec
